import Mathlib

/-
Shallow embedding of the storage layer of the FinanceTracker repository
(src/server/storage.ts together with the relational schema declared in
src/server/db.ts).  JavaScript `Date` values are modelled by their
`getTime()` value, an integer count of milliseconds since the epoch
(negative for instants before 1970).  Nullable columns are modelled with
`Option`.  `Array.prototype.sort` (stable per the ECMAScript standard) is
modelled by a stable insertion sort on the comparator key.
-/

/-- Milliseconds since the Unix epoch, as returned by Date.getTime; may be
negative for pre-1970 instants. -/
abbrev Time := Int

/-- InsertUser (shared schema): the caller-supplied part of a User. -/
structure InsertUser where
  username : String
  email : String
  password : String
deriving DecidableEq

/-- User entity: id and creation timestamp are assigned by the store. -/
structure User where
  id : Nat
  username : String
  email : String
  password : String
  createdAt : Time
deriving DecidableEq

/-- InsertChatMessage: caller-supplied part of a ChatMessage. -/
structure InsertChatMessage where
  userId : Nat
  message : String
  isUserMessage : Bool
deriving DecidableEq

/-- ChatMessage entity.  The relational `timestamp` column is nullable
(legacy rows), hence `Option Time`. -/
structure ChatMessage where
  id : Nat
  userId : Nat
  message : String
  isUserMessage : Bool
  timestamp : Option Time
deriving DecidableEq

/-- InsertFinancialGoal: caller-supplied part of a FinancialGoal. -/
structure InsertFinancialGoal where
  userId : Nat
  title : String
  targetAmount : Int
  currentAmount : Int
  deadline : Option Time
  category : String
deriving DecidableEq

/-- FinancialGoal entity.  The relational `created_at` column is nullable
(legacy rows), hence `Option Time`. -/
structure FinancialGoal where
  id : Nat
  userId : Nat
  title : String
  targetAmount : Int
  currentAmount : Int
  deadline : Option Time
  category : String
  createdAt : Option Time
deriving DecidableEq

/-- A `Partial<InsertFinancialGoal>` value: each field is either present
(`some v`) or absent (`none`).  Note it contains neither `id` nor
`createdAt`, which are not part of InsertFinancialGoal. -/
structure GoalUpdate where
  userId : Option Nat
  title : Option String
  targetAmount : Option Int
  currentAmount : Option Int
  deadline : Option (Option Time)
  category : Option String
deriving DecidableEq

/-- The object spread `\x7b ...existingGoal, ...updateData \x7d`: a field
present in the update overwrites the stored field, an absent field keeps
the stored value; `id` and `createdAt` cannot occur in the update. -/
def applyGoalUpdate (g : FinancialGoal) (u : GoalUpdate) : FinancialGoal :=
  { g with
    userId := u.userId.getD g.userId
    title := u.title.getD g.title
    targetAmount := u.targetAmount.getD g.targetAmount
    currentAmount := u.currentAmount.getD g.currentAmount
    deadline := u.deadline.getD g.deadline
    category := u.category.getD g.category }

/-- FinancialProfile entity.  Modelled from the spec: shared/schema.ts is
absent from the source tree; fields follow spec section 3 and the
financial_profiles DDL of src/server/db.ts (DECIMAL amounts modelled as
integers, as for the goal amounts). -/
structure FinancialProfile where
  id : Nat
  userId : Nat
  monthlyIncome : Int
  housingExpense : Int
  transportExpense : Int
  foodExpense : Int
  otherExpenses : Int
  savingsGoal : Int
  retirementGoal : Int
  riskTolerance : String
  updatedAt : Time
deriving DecidableEq

/-- InsertFinancialProfile: caller-supplied part of a FinancialProfile
(id and updated timestamp are assigned by the store). -/
structure InsertFinancialProfile where
  userId : Nat
  monthlyIncome : Int
  housingExpense : Int
  transportExpense : Int
  foodExpense : Int
  otherExpenses : Int
  savingsGoal : Int
  retirementGoal : Int
  riskTolerance : String
deriving DecidableEq

/-- A `Partial<InsertFinancialProfile>` value: each field either present
(`some v`) or absent (`none`); it contains neither `id` nor `updatedAt`. -/
structure ProfileUpdate where
  userId : Option Nat
  monthlyIncome : Option Int
  housingExpense : Option Int
  transportExpense : Option Int
  foodExpense : Option Int
  otherExpenses : Option Int
  savingsGoal : Option Int
  retirementGoal : Option Int
  riskTolerance : Option String
deriving DecidableEq

/-- The object spread `\x7b ...existingProfile, ...updateData \x7d` over
the insert fields: present fields overwrite, absent fields keep the
stored value; `id` and `updatedAt` cannot occur in the update (the update
operation refreshes `updatedAt` separately). -/
def applyProfileUpdate (p : FinancialProfile) (u : ProfileUpdate) : FinancialProfile :=
  { p with
    userId := u.userId.getD p.userId
    monthlyIncome := u.monthlyIncome.getD p.monthlyIncome
    housingExpense := u.housingExpense.getD p.housingExpense
    transportExpense := u.transportExpense.getD p.transportExpense
    foodExpense := u.foodExpense.getD p.foodExpense
    otherExpenses := u.otherExpenses.getD p.otherExpenses
    savingsGoal := u.savingsGoal.getD p.savingsGoal
    retirementGoal := u.retirementGoal.getD p.retirementGoal
    riskTolerance := u.riskTolerance.getD p.riskTolerance }

/-- Insert `a` into a (sorted) list, before the first element whose key is
not smaller: the insertion step of a stable sort. -/
def orderedInsertKey {α : Type} (key : α → Int) (a : α) : List α → List α
  | [] => [a]
  | b :: l => if key a ≤ key b then a :: b :: l else b :: orderedInsertKey key a l

/-- Stable sort by an integer key: the model of JavaScript's
`array.sort((a, b) => keyA - keyB)`, which is stable per ECMA-262. -/
def sortByKey {α : Type} (key : α → Int) : List α → List α
  | [] => []
  | a :: l => orderedInsertKey key a (sortByKey key l)

/-- JavaScript `Map.prototype.get` on a map represented as its entry list
in insertion order, keyed by `key`. -/
def mapGet {α : Type} (key : α → Nat) (id : Nat) (l : List α) : Option α :=
  l.find? (fun x => key x == id)

/-- JavaScript `Map.prototype.set`: replace the entry with this key in
place, or append a new entry. -/
def mapSet {α : Type} (key : α → Nat) (id : Nat) (v : α) : List α → List α
  | [] => [v]
  | x :: xs => if key x == id then v :: xs else x :: mapSet key id v xs

/-- JavaScript `Map.prototype.delete`: remove the entry with this key and
report whether one existed. -/
def mapDelete {α : Type} (key : α → Nat) (id : Nat) : List α → Bool × List α
  | [] => (false, [])
  | x :: xs =>
      if key x == id then (true, xs)
      else
        let r := mapDelete key id xs
        (r.1, x :: r.2)

/-- State of MemStorage: one Map per entity (entry lists in insertion
order) and one monotonic id counter per entity, all counters starting
at 1. -/
structure MemStorage where
  users : List User
  financialProfiles : List FinancialProfile
  chatMessages : List ChatMessage
  financialGoals : List FinancialGoal
  userIdCounter : Nat
  profileIdCounter : Nat
  messageIdCounter : Nat
  goalIdCounter : Nat
deriving DecidableEq

/-- A freshly constructed MemStorage. -/
def MemStorage.empty : MemStorage := ⟨[], [], [], [], 1, 1, 1, 1⟩

/-- MemStorage.getUser: `this.users.get(id)`. -/
def MemStorage.getUser (st : MemStorage) (id : Nat) : Option User :=
  mapGet (fun u => u.id) id st.users

/-- MemStorage.getUserByUsername: linear scan in insertion order, first
match. -/
def MemStorage.getUserByUsername (st : MemStorage) (username : String) : Option User :=
  st.users.find? (fun u => u.username == username)

/-- MemStorage.getUserByEmail: linear scan in insertion order, first
match. -/
def MemStorage.getUserByEmail (st : MemStorage) (email : String) : Option User :=
  st.users.find? (fun u => u.email == email)

/-- MemStorage.createUser: assigns the next counter id and the current
time; performs no uniqueness check on username or email.  `now` stands
for the `new Date()` call. -/
def MemStorage.createUser (st : MemStorage) (d : InsertUser) (now : Time) :
    User × MemStorage :=
  let id := st.userIdCounter
  let user : User :=
    { id := id, username := d.username, email := d.email,
      password := d.password, createdAt := now }
  (user,
   { st with
     users := mapSet (fun u => u.id) id user st.users
     userIdCounter := id + 1 })

/-- MemStorage.getFinancialProfile: linear scan in insertion order, first
profile of this user. -/
def MemStorage.getFinancialProfile (st : MemStorage) (userId : Nat) :
    Option FinancialProfile :=
  st.financialProfiles.find? (fun p => p.userId == userId)

/-- MemStorage.createFinancialProfile: assigns the next counter id and the
current time as updated timestamp. -/
def MemStorage.createFinancialProfile (st : MemStorage)
    (d : InsertFinancialProfile) (now : Time) : FinancialProfile × MemStorage :=
  let id := st.profileIdCounter
  let profile : FinancialProfile :=
    { id := id, userId := d.userId, monthlyIncome := d.monthlyIncome,
      housingExpense := d.housingExpense, transportExpense := d.transportExpense,
      foodExpense := d.foodExpense, otherExpenses := d.otherExpenses,
      savingsGoal := d.savingsGoal, retirementGoal := d.retirementGoal,
      riskTolerance := d.riskTolerance, updatedAt := now }
  (profile,
   { st with
     financialProfiles := mapSet (fun p => p.id) id profile st.financialProfiles
     profileIdCounter := id + 1 })

/-- MemStorage.updateFinancialProfile: look the user's profile up; if none
exists return the not-found sentinel with the store untouched, otherwise
merge the update over it by object spread, refresh the updated timestamp,
and store the merged profile under the existing id. -/
def MemStorage.updateFinancialProfile (st : MemStorage) (userId : Nat)
    (u : ProfileUpdate) (now : Time) : Option FinancialProfile × MemStorage :=
  match st.getFinancialProfile userId with
  | none => (none, st)
  | some existingProfile =>
      let updatedProfile : FinancialProfile :=
        { applyProfileUpdate existingProfile u with updatedAt := now }
      (some updatedProfile,
       { st with
         financialProfiles :=
           mapSet (fun p => p.id) existingProfile.id updatedProfile
             st.financialProfiles })

/-- Sort key used by MemStorage.getChatMessages.  The source reads
`a.timestamp.getTime()` with no null branch: in this backend every stored
message has a timestamp assigned by createChatMessage, so the `getD 0`
default is never exercised on states reachable through the API. -/
def memMsgTime (m : ChatMessage) : Time := m.timestamp.getD 0

/-- MemStorage.getChatMessages: filter this user's messages, sort by
timestamp, and if a non-zero limit is given (`if (limit)`) keep the last
`limit` elements (`slice(-limit)`). -/
def MemStorage.getChatMessages (st : MemStorage) (userId : Nat)
    (limit : Option Nat) : List ChatMessage :=
  let userMessages :=
    sortByKey memMsgTime (st.chatMessages.filter (fun m => m.userId == userId))
  match limit with
  | some n => if n = 0 then userMessages
              else userMessages.drop (userMessages.length - n)
  | none => userMessages

/-- MemStorage.createChatMessage: assigns the next counter id and the
current time. -/
def MemStorage.createChatMessage (st : MemStorage) (d : InsertChatMessage)
    (now : Time) : ChatMessage × MemStorage :=
  let id := st.messageIdCounter
  let message : ChatMessage :=
    { id := id, userId := d.userId, message := d.message,
      isUserMessage := d.isUserMessage, timestamp := some now }
  (message,
   { st with
     chatMessages := mapSet (fun m => m.id) id message st.chatMessages
     messageIdCounter := id + 1 })

/-- Sort key used by MemStorage.getFinancialGoals (`a.createdAt.getTime()`,
no null branch in the source; goals stored by this backend always carry a
creation timestamp). -/
def memGoalTime (g : FinancialGoal) : Time := g.createdAt.getD 0

/-- MemStorage.getFinancialGoals: filter this user's goals and sort by
creation time. -/
def MemStorage.getFinancialGoals (st : MemStorage) (userId : Nat) :
    List FinancialGoal :=
  sortByKey memGoalTime (st.financialGoals.filter (fun g => g.userId == userId))

/-- MemStorage.getFinancialGoal: `this.financialGoals.get(id)`. -/
def MemStorage.getFinancialGoal (st : MemStorage) (id : Nat) : Option FinancialGoal :=
  mapGet (fun g => g.id) id st.financialGoals

/-- MemStorage.createFinancialGoal: assigns the next counter id and the
current time. -/
def MemStorage.createFinancialGoal (st : MemStorage) (d : InsertFinancialGoal)
    (now : Time) : FinancialGoal × MemStorage :=
  let id := st.goalIdCounter
  let goal : FinancialGoal :=
    { id := id, userId := d.userId, title := d.title,
      targetAmount := d.targetAmount, currentAmount := d.currentAmount,
      deadline := d.deadline, category := d.category, createdAt := some now }
  (goal,
   { st with
     financialGoals := mapSet (fun g => g.id) id goal st.financialGoals
     goalIdCounter := id + 1 })

/-- MemStorage.updateFinancialGoal: look the goal up, merge the update
over it by object spread, store the merged goal under the same id. -/
def MemStorage.updateFinancialGoal (st : MemStorage) (id : Nat) (u : GoalUpdate) :
    Option FinancialGoal × MemStorage :=
  match st.getFinancialGoal id with
  | none => (none, st)
  | some g =>
      let updatedGoal := applyGoalUpdate g u
      (some updatedGoal,
       { st with
         financialGoals := mapSet (fun x => x.id) id updatedGoal st.financialGoals })

/-- MemStorage.deleteFinancialGoal: `this.financialGoals.delete(id)`. -/
def MemStorage.deleteFinancialGoal (st : MemStorage) (id : Nat) :
    Bool × MemStorage :=
  let r := mapDelete (fun g => g.id) id st.financialGoals
  (r.1, { st with financialGoals := r.2 })

/-- A row of the relational `users` table (src/server/db.ts): the stored
credential column is named `password_hash`; `created_at` is filled by the
column default at insert time. -/
structure UserRow where
  id : Nat
  username : String
  email : String
  password_hash : String
  createdAt : Time
deriving DecidableEq

/-- Modelled from the spec: shared/schema.ts is absent from the source
tree; per the spec the relational backend "translates consistently in
both directions" between the interface's `password` field and the
database's `password_hash` column, so a selected row maps back to a User
whose `password` holds the stored `password_hash` value. -/
def UserRow.toUser (r : UserRow) : User :=
  { id := r.id, username := r.username, email := r.email,
    password := r.password_hash, createdAt := r.createdAt }

/-- Database-raised errors modelled here.  The only constraint the
modelled statements can violate is the UNIQUE constraint on
users.username / users.email (src/server/db.ts), which createUser
surfaces to its caller (the spec's ConflictError). -/
inductive DBError where
  | conflictError
deriving DecidableEq

/-- State of the database that PostgresStorage operates on: the four
tables (row lists in insertion order) and the SERIAL sequences.  Each
PostgresStorage method is a function of this state.  The try/catch blocks
in the source log and re-raise transport errors; the database here is a
value, so the only modelled failure is a constraint violation, and only
createUser can hit one. -/
structure PostgresStorage where
  users : List UserRow
  chatMessages : List ChatMessage
  financialGoals : List FinancialGoal
  userSeq : Nat
  msgSeq : Nat
  goalSeq : Nat
deriving DecidableEq

/-- An empty database with fresh sequences. -/
def PostgresStorage.empty : PostgresStorage := ⟨[], [], [], 1, 1, 1⟩

/-- PostgresStorage.getUser: SELECT WHERE id, then
`result.length > 0 ? result[0] : undefined`. -/
def PostgresStorage.getUser (db : PostgresStorage) (id : Nat) : Option User :=
  ((db.users.filter (fun r => r.id == id)).head?).map UserRow.toUser

/-- PostgresStorage.getUserByUsername: SELECT WHERE username, first row or
undefined. -/
def PostgresStorage.getUserByUsername (db : PostgresStorage) (username : String) :
    Option User :=
  ((db.users.filter (fun r => r.username == username)).head?).map UserRow.toUser

/-- PostgresStorage.getUserByEmail: SELECT WHERE email, first row or
undefined. -/
def PostgresStorage.getUserByEmail (db : PostgresStorage) (email : String) :
    Option User :=
  ((db.users.filter (fun r => r.email == email)).head?).map UserRow.toUser

/-- PostgresStorage.createUser: INSERT (username, email, password_hash :=
insertUser.password) RETURNING; the database enforces UNIQUE(username)
and UNIQUE(email) and the violation is re-raised to the caller.  `now`
stands for the `created_at` column default CURRENT_TIMESTAMP. -/
def PostgresStorage.createUser (db : PostgresStorage) (d : InsertUser)
    (now : Time) : Except DBError (User × PostgresStorage) :=
  if db.users.any (fun r => r.username == d.username) ||
     db.users.any (fun r => r.email == d.email) then
    .error .conflictError
  else
    let row : UserRow :=
      { id := db.userSeq, username := d.username, email := d.email,
        password_hash := d.password, createdAt := now }
    .ok (row.toUser,
         { db with users := db.users ++ [row], userSeq := db.userSeq + 1 })

/-- Sort key used by PostgresStorage.getChatMessages:
`a.timestamp ? a.timestamp.getTime() : 0` (null timestamps get key 0). -/
def pgMsgTime (m : ChatMessage) : Time :=
  match m.timestamp with
  | some t => t
  | none => 0

/-- PostgresStorage.getChatMessages: SELECT WHERE user_id, sort in
application code with null timestamps keyed 0, and if
`limit && limit > 0` keep the last `limit` elements (`slice(-limit)`). -/
def PostgresStorage.getChatMessages (db : PostgresStorage) (userId : Nat)
    (limit : Option Nat) : List ChatMessage :=
  let result := db.chatMessages.filter (fun m => m.userId == userId)
  let sortedMessages := sortByKey pgMsgTime result
  match limit with
  | some n => if 0 < n then sortedMessages.drop (sortedMessages.length - n)
              else sortedMessages
  | none => sortedMessages

/-- PostgresStorage.createChatMessage: INSERT (user_id, message,
is_user_message) RETURNING; the `timestamp` column default fills in the
current time. -/
def PostgresStorage.createChatMessage (db : PostgresStorage)
    (d : InsertChatMessage) (now : Time) : ChatMessage × PostgresStorage :=
  let row : ChatMessage :=
    { id := db.msgSeq, userId := d.userId, message := d.message,
      isUserMessage := d.isUserMessage, timestamp := some now }
  (row, { db with chatMessages := db.chatMessages ++ [row], msgSeq := db.msgSeq + 1 })

/-- Sort key used by PostgresStorage.getFinancialGoals:
`a.createdAt ? a.createdAt.getTime() : 0`. -/
def pgGoalTime (g : FinancialGoal) : Time :=
  match g.createdAt with
  | some t => t
  | none => 0

/-- PostgresStorage.getFinancialGoals: SELECT WHERE user_id, sort in
application code with null creation times keyed 0. -/
def PostgresStorage.getFinancialGoals (db : PostgresStorage) (userId : Nat) :
    List FinancialGoal :=
  let result := db.financialGoals.filter (fun g => g.userId == userId)
  sortByKey pgGoalTime result

/-- PostgresStorage.getFinancialGoal: SELECT WHERE id, first row or
undefined. -/
def PostgresStorage.getFinancialGoal (db : PostgresStorage) (id : Nat) :
    Option FinancialGoal :=
  (db.financialGoals.filter (fun g => g.id == id)).head?

/-- PostgresStorage.createFinancialGoal: INSERT (user_id, title,
target_amount, current_amount, deadline, category) RETURNING; the
`created_at` column default fills in the current time. -/
def PostgresStorage.createFinancialGoal (db : PostgresStorage)
    (d : InsertFinancialGoal) (now : Time) : FinancialGoal × PostgresStorage :=
  let row : FinancialGoal :=
    { id := db.goalSeq, userId := d.userId, title := d.title,
      targetAmount := d.targetAmount, currentAmount := d.currentAmount,
      deadline := d.deadline, category := d.category, createdAt := some now }
  (row, { db with financialGoals := db.financialGoals ++ [row], goalSeq := db.goalSeq + 1 })

/-- PostgresStorage.updateFinancialGoal: UPDATE SET updateData WHERE id
RETURNING, then `result.length > 0 ? result[0] : undefined`.  Every row
matching the id is overwritten with the merge of the update over it. -/
def PostgresStorage.updateFinancialGoal (db : PostgresStorage) (id : Nat)
    (u : GoalUpdate) : Option FinancialGoal × PostgresStorage :=
  let result := (db.financialGoals.filter (fun g => g.id == id)).map
    (fun g => applyGoalUpdate g u)
  (result.head?,
   { db with
     financialGoals := db.financialGoals.map
       (fun g => if g.id == id then applyGoalUpdate g u else g) })

/-- PostgresStorage.deleteFinancialGoal: DELETE WHERE id RETURNING id,
then `result.length > 0`. -/
def PostgresStorage.deleteFinancialGoal (db : PostgresStorage) (id : Nat) :
    Bool × PostgresStorage :=
  let result := db.financialGoals.filter (fun g => g.id == id)
  (!result.isEmpty,
   { db with financialGoals := db.financialGoals.filter (fun g => !(g.id == id)) })

/-- A legacy chat row with a null timestamp. -/
def mNull : ChatMessage := ⟨1, 1, "hello", true, none⟩

/-- A chat row whose timestamp is one second before the epoch. -/
def mNeg : ChatMessage := ⟨2, 1, "hi", false, some (-1000)⟩

/-- Database holding the two rows above, in that insertion order. -/
def pgC1 : PostgresStorage := ⟨[], [mNull, mNeg], [], 1, 3, 1⟩

/-- Three chat messages for user 1 with increasing timestamps. -/
def mA : ChatMessage := ⟨1, 1, "a", true, some 10⟩

/-- Second of the three sample messages. -/
def mB : ChatMessage := ⟨2, 1, "b", false, some 20⟩

/-- Third of the three sample messages. -/
def mC : ChatMessage := ⟨3, 1, "c", true, some 30⟩

/-- In-memory store holding the three sample messages. -/
def memMsgs : MemStorage := ⟨[], [], [mA, mB, mC], [], 1, 1, 4, 1⟩

/-- Database holding the three sample messages. -/
def pgMsgs : PostgresStorage := ⟨[], [mA, mB, mC], [], 1, 4, 1⟩

/-- A sample financial goal owned by user 1. -/
def gEx : FinancialGoal := ⟨1, 1, "Emergency Fund", 1000, 0, none, "savings", some 50⟩

/-- In-memory store holding the sample goal. -/
def memGoal : MemStorage := ⟨[], [], [], [gEx], 1, 1, 1, 2⟩

/-- Database holding the sample goal. -/
def pgGoal : PostgresStorage := ⟨[], [], [gEx], 1, 1, 2⟩

/-- An update that supplies only a new title. -/
def uTitle : GoalUpdate := ⟨none, some "X", none, none, none, none⟩

/-- The sample goal after the title-only update. -/
def gTitled : FinancialGoal := ⟨1, 1, "X", 1000, 0, none, "savings", some 50⟩

/-- An update that supplies only a new owning user id. -/
def uOwner : GoalUpdate := ⟨some 42, none, none, none, none, none⟩

/-- The sample goal after the owner-only update: same id, new owner. -/
def gOwned : FinancialGoal := ⟨1, 42, "Emergency Fund", 1000, 0, none, "savings", some 50⟩

/-- Sample user-creation input. -/
def aliceInsert : InsertUser := ⟨"alice", "a@x.com", "h1"⟩

/-- The user record produced from `aliceInsert` with id 1 at time 100. -/
def aliceUser : User := ⟨1, "alice", "a@x.com", "h1", 100⟩

/-- The users-table row produced from `aliceInsert` with id 1 at time 100. -/
def aliceRow : UserRow := ⟨1, "alice", "a@x.com", "h1", 100⟩

/-- Database state after inserting `aliceRow` into an empty database. -/
def pgAlice : PostgresStorage := ⟨[aliceRow], [], [], 2, 1, 1⟩

/-- A sample financial profile owned by user 1. -/
def pfEx : FinancialProfile :=
  ⟨1, 1, 5000, 1500, 300, 600, 400, 10000, 500000, "medium", 60⟩

/-- A profile update that supplies only a new monthly income. -/
def puEx : ProfileUpdate :=
  ⟨none, some 6000, none, none, none, none, none, none, none⟩

/-- A populated in-memory store: one user, one profile, one message, one
goal. -/
def memPop : MemStorage := ⟨[aliceUser], [pfEx], [mA], [gEx], 2, 2, 2, 2⟩

/-- Inserting an element is a permutation of consing it. -/
theorem orderedInsertKey_perm {α : Type} (key : α → Int) (a : α) (l : List α) :
    List.Perm (orderedInsertKey key a l) (a :: l) := by
  induction l with
  | nil => exact List.Perm.refl _
  | cons b l ih =>
    simp only [orderedInsertKey]
    by_cases h : key a ≤ key b
    · rw [if_pos h]
    · rw [if_neg h]
      exact (List.Perm.cons b ih).trans (List.Perm.swap a b l)

/-- The stable sort permutes its input. -/
theorem sortByKey_perm {α : Type} (key : α → Int) (l : List α) :
    List.Perm (sortByKey key l) l := by
  induction l with
  | nil => exact List.Perm.refl _
  | cons a l ih =>
    exact (orderedInsertKey_perm key a (sortByKey key l)).trans (List.Perm.cons a ih)

/-- Inserting into a key-sorted list keeps it key-sorted. -/
theorem pairwise_orderedInsertKey {α : Type} (key : α → Int) (a : α) (l : List α)
    (h : l.Pairwise (fun x y => key x ≤ key y)) :
    (orderedInsertKey key a l).Pairwise (fun x y => key x ≤ key y) := by
  induction l with
  | nil => simp [orderedInsertKey]
  | cons b l ih =>
    rw [List.pairwise_cons] at h
    obtain ⟨hb, hl⟩ := h
    simp only [orderedInsertKey]
    by_cases hab : key a ≤ key b
    · rw [if_pos hab, List.pairwise_cons]
      refine ⟨?_, ?_⟩
      · intro y hy
        rcases List.mem_cons.mp hy with hy | hy
        · exact hy ▸ hab
        · exact le_trans hab (hb y hy)
      · rw [List.pairwise_cons]
        exact ⟨hb, hl⟩
    · rw [if_neg hab, List.pairwise_cons]
      refine ⟨?_, ih hl⟩
      intro y hy
      rcases List.mem_cons.mp ((orderedInsertKey_perm key a l).mem_iff.mp hy) with hy | hy
      · exact hy ▸ le_of_not_le hab
      · exact hb y hy

/-- The stable sort produces a key-sorted list. -/
theorem pairwise_sortByKey {α : Type} (key : α → Int) (l : List α) :
    (sortByKey key l).Pairwise (fun x y => key x ≤ key y) := by
  induction l with
  | nil => simp [sortByKey]
  | cons a l ih => exact pairwise_orderedInsertKey key a _ ih

/-- On a key-sorted list, inserting `a` places it before every element of
equal key: filtering any key class commutes with the insertion. -/
theorem filter_orderedInsertKey {α : Type} (key : α → Int) (k : Int) (a : α)
    (l : List α) (h : l.Pairwise (fun x y => key x ≤ key y)) :
    (orderedInsertKey key a l).filter (fun x => key x == k) =
      if key a = k then a :: l.filter (fun x => key x == k)
      else l.filter (fun x => key x == k) := by
  induction l with
  | nil =>
    by_cases hk : key a = k <;>
      simp [orderedInsertKey, List.filter_cons, beq_iff_eq, hk]
  | cons b l ih =>
    rw [List.pairwise_cons] at h
    obtain ⟨hb, hl⟩ := h
    simp only [orderedInsertKey]
    by_cases hab : key a ≤ key b
    · rw [if_pos hab]
      by_cases hk : key a = k <;> by_cases hbk : key b = k <;>
        simp [List.filter_cons, beq_iff_eq, hk, hbk]
    · rw [if_neg hab]
      have hba : key b < key a := lt_of_not_le hab
      simp only [List.filter_cons]
      rw [ih hl]
      by_cases hk : key a = k
      · have hbk : ¬ key b = k := fun hbk => (ne_of_lt hba) (hbk.trans hk.symm)
        simp [beq_iff_eq, hk, hbk]
      · by_cases hbk : key b = k <;> simp [beq_iff_eq, hk, hbk]

/-- Stability of the sort: each key class of the output equals the key
class of the input, in input order. -/
theorem filter_sortByKey {α : Type} (key : α → Int) (k : Int) (l : List α) :
    (sortByKey key l).filter (fun x => key x == k) =
      l.filter (fun x => key x == k) := by
  induction l with
  | nil => rfl
  | cons a l ih =>
    simp only [sortByKey]
    rw [filter_orderedInsertKey key k a _ (pairwise_sortByKey key l)]
    by_cases hk : key a = k <;> simp [List.filter_cons, beq_iff_eq, hk, ih]

/-- Setting a key and reading it back returns the stored value. -/
theorem mapGet_mapSet_self {α : Type} (key : α → Nat) (id : Nat) (v : α)
    (hv : key v = id) (l : List α) :
    mapGet key id (mapSet key id v l) = some v := by
  induction l with
  | nil => simp [mapGet, mapSet, List.find?_cons, hv]
  | cons x xs ih =>
    simp only [mapSet]
    by_cases hx : key x = id
    · simp [mapGet, List.find?_cons, beq_iff_eq, hx, hv]
    · simp only [beq_iff_eq, hx, ite_false, if_neg]
      simpa [mapGet, List.find?_cons, beq_iff_eq, hx] using ih

/-- Deleting a key that is absent reports false and leaves the map
unchanged. -/
theorem mapDelete_not_found {α : Type} (key : α → Nat) (id : Nat) (l : List α)
    (h : ∀ x ∈ l, key x ≠ id) : mapDelete key id l = (false, l) := by
  induction l with
  | nil => rfl
  | cons x xs ih =>
    have hx : ¬ key x = id := h x (List.mem_cons_self x xs)
    simp only [mapDelete, beq_iff_eq, hx, ite_false, if_neg]
    rw [ih (fun y hy => h y (List.mem_cons_of_mem x hy))]

/-- Deleting a key that is present reports true. -/
theorem mapDelete_found {α : Type} (key : α → Nat) (id : Nat) (l : List α)
    (g : α) (h : mapGet key id l = some g) : (mapDelete key id l).1 = true := by
  induction l with
  | nil => simp [mapGet, List.find?] at h
  | cons x xs ih =>
    by_cases hx : key x = id
    · simp [mapDelete, beq_iff_eq, hx]
    · have hxf : (key x == id) = false := by simp [hx]
      rw [mapGet, List.find?_cons, hxf] at h
      simp only [mapDelete, hxf, Bool.false_eq_true, if_false]
      exact ih h

/-- After a delete on a map with no duplicate keys, no entry with the
deleted key remains. -/
theorem mapDelete_no_key {α : Type} (key : α → Nat) (id : Nat) (l : List α)
    (hnd : (l.map key).Nodup) :
    ∀ x ∈ (mapDelete key id l).2, key x ≠ id := by
  induction l with
  | nil => simp [mapDelete]
  | cons a l ih =>
    rw [List.map_cons, List.nodup_cons] at hnd
    obtain ⟨ha, hl⟩ := hnd
    by_cases hk : key a = id
    · simp only [mapDelete, beq_iff_eq, hk, ite_true, if_pos]
      intro x hx hxk
      exact ha (hk ▸ hxk ▸ List.mem_map_of_mem key hx)
    · simp only [mapDelete, beq_iff_eq, hk, ite_false, if_neg]
      intro x hx
      rcases List.mem_cons.mp hx with hx | hx
      · exact hx ▸ hk
      · exact ih hl x hx

/-- Absent key: the lookup returns the not-found sentinel. -/
theorem mapGet_not_found {α : Type} (key : α → Nat) (id : Nat) (l : List α)
    (h : ∀ x ∈ l, key x ≠ id) : mapGet key id l = none := by
  rw [mapGet, List.find?_eq_none]
  intro x hx
  simp [beq_iff_eq, h x hx]

/-- C9: for every user and both backends, getChatMessages(userId, 0)
returns the full ordered message list, identical to the call with no
limit argument: a zero limit is treated as absent (`if (limit)` and
`if (limit && limit > 0)` are both false at 0), not as "return zero
messages". -/
theorem c9_limit_zero_means_no_limit (st : MemStorage) (db : PostgresStorage)
    (uid : Nat) :
    st.getChatMessages uid (some 0) = st.getChatMessages uid none ∧
    db.getChatMessages uid (some 0) = db.getChatMessages uid none := by
  constructor
  · simp [MemStorage.getChatMessages]
  · simp [PostgresStorage.getChatMessages]

/-- C3: for every user and positive limit n, getChatMessages(userId, n)
is exactly the length-minus-n suffix of the unrestricted result (the
whole result when fewer than n messages exist), in both backends. -/
theorem c3_limit_suffix_law (st : MemStorage) (db : PostgresStorage)
    (uid n : Nat) (hn : 0 < n) :
    st.getChatMessages uid (some n) =
      (st.getChatMessages uid none).drop
        ((st.getChatMessages uid none).length - n) ∧
    db.getChatMessages uid (some n) =
      (db.getChatMessages uid none).drop
        ((db.getChatMessages uid none).length - n) := by
  constructor
  · simp [MemStorage.getChatMessages, Nat.pos_iff_ne_zero.mp hn]
  · simp [PostgresStorage.getChatMessages, hn]

/-- Witness for c3_limit_suffix_law: three stored messages, limit 2. -/
theorem c3_limit_suffix_law_witness :
    0 < 2 ∧
    (memMsgs.getChatMessages 1 (some 2) =
      (memMsgs.getChatMessages 1 none).drop
        ((memMsgs.getChatMessages 1 none).length - 2) ∧
     pgMsgs.getChatMessages 1 (some 2) =
      (pgMsgs.getChatMessages 1 none).drop
        ((pgMsgs.getChatMessages 1 none).length - 2)) :=
  ⟨by decide, c3_limit_suffix_law memMsgs pgMsgs 1 2 (by decide)⟩

/-- C1 counterexample: a row timestamped one second before the epoch
sorts BEFORE the null-timestamp row, although the claim requires every
null-timestamp record to sort before every record with a non-null
timestamp.  The store holds mNull (null timestamp) inserted first and
mNeg (timestamp -1000) inserted second; the returned order is
[mNeg, mNull]. -/
theorem c1_null_first_counterexample :
    pgC1.getChatMessages 1 none = [mNeg, mNull] ∧
    mNull.timestamp = none ∧ mNeg.timestamp = some (-1000) := by
  decide

/-- C1 (amended): in the relational backend's getChatMessages and
getFinancialGoals a null/missing timestamp is keyed as the epoch (0),
so the returned list is non-decreasing in that key: a null-timestamp
record sorts before every record timestamped after the epoch (though not
before records timestamped at or before the epoch), and any two records
carrying non-null timestamps appear in true chronological order, never
altered by the null-default substitution. -/
theorem c1_null_keyed_as_epoch (db : PostgresStorage) (uid : Nat) :
    (db.getChatMessages uid none).Pairwise
      (fun a b => pgMsgTime a ≤ pgMsgTime b) ∧
    (∀ m : ChatMessage, m.timestamp = none → pgMsgTime m = 0) ∧
    (db.getChatMessages uid none).Pairwise
      (fun a b => ∀ s t : Time,
        a.timestamp = some s → b.timestamp = some t → s ≤ t) ∧
    (db.getFinancialGoals uid).Pairwise
      (fun a b => pgGoalTime a ≤ pgGoalTime b) ∧
    (∀ g : FinancialGoal, g.createdAt = none → pgGoalTime g = 0) ∧
    (db.getFinancialGoals uid).Pairwise
      (fun a b => ∀ s t : Time,
        a.createdAt = some s → b.createdAt = some t → s ≤ t) := by
  refine ⟨?_, ?_, ?_, ?_, ?_, ?_⟩
  · exact pairwise_sortByKey pgMsgTime _
  · intro m hm
    simp [pgMsgTime, hm]
  · refine List.Pairwise.imp ?_ (pairwise_sortByKey pgMsgTime _)
    intro a b hab s t hs ht
    rw [pgMsgTime, pgMsgTime, hs, ht] at hab
    exact hab
  · exact pairwise_sortByKey pgGoalTime _
  · intro g hg
    simp [pgGoalTime, hg]
  · refine List.Pairwise.imp ?_ (pairwise_sortByKey pgGoalTime _)
    intro a b hab s t hs ht
    rw [pgGoalTime, pgGoalTime, hs, ht] at hab
    exact hab

/-- C4: in both backends getChatMessages(userId) returns exactly that
user's messages (a permutation of the user's rows taken in insertion
order), the returned list is non-decreasing in the timestamp key, and
every class of messages with equal timestamp keys (two null/missing
timestamps included) appears in its original insertion order
(stability of the sort). -/
theorem c4_ordering_law (st : MemStorage) (db : PostgresStorage) (uid : Nat) :
    List.Perm (st.getChatMessages uid none)
      (st.chatMessages.filter (fun m => m.userId == uid)) ∧
    (st.getChatMessages uid none).Pairwise
      (fun a b => memMsgTime a ≤ memMsgTime b) ∧
    (∀ k : Time,
      (st.getChatMessages uid none).filter (fun m => memMsgTime m == k) =
        (st.chatMessages.filter (fun m => m.userId == uid)).filter
          (fun m => memMsgTime m == k)) ∧
    List.Perm (db.getChatMessages uid none)
      (db.chatMessages.filter (fun m => m.userId == uid)) ∧
    (db.getChatMessages uid none).Pairwise
      (fun a b => pgMsgTime a ≤ pgMsgTime b) ∧
    (∀ k : Time,
      (db.getChatMessages uid none).filter (fun m => pgMsgTime m == k) =
        (db.chatMessages.filter (fun m => m.userId == uid)).filter
          (fun m => pgMsgTime m == k)) := by
  refine ⟨?_, ?_, ?_, ?_, ?_, ?_⟩
  · exact sortByKey_perm memMsgTime _
  · exact pairwise_sortByKey memMsgTime _
  · intro k
    exact filter_sortByKey memMsgTime k _
  · exact sortByKey_perm pgMsgTime _
  · exact pairwise_sortByKey pgMsgTime _
  · intro k
    exact filter_sortByKey pgMsgTime k _

/-- C2: evaluation at the failing input.  Creating the same username and
email twice: the in-memory backend silently returns a second User with a
fresh id (and both records coexist), while the relational backend raises
the ConflictError from the database's UNIQUE constraints.  The claim's
shared contract (createUser fails with ConflictError when username or
email is taken, on every backend) is therefore broken by MemStorage,
which the spec itself flags as a latent inconsistency. -/
theorem c2_duplicate_user_divergence :
    ((MemStorage.empty.createUser aliceInsert 100).2.createUser
        aliceInsert 200).1.id = 2 ∧
    (((MemStorage.empty.createUser aliceInsert 100).2.createUser
        aliceInsert 200).2.users.filter
          (fun u => u.username == "alice")).length = 2 ∧
    PostgresStorage.empty.createUser aliceInsert 100 = .ok (aliceUser, pgAlice) ∧
    pgAlice.createUser aliceInsert 200 = .error .conflictError := by
  exact ⟨rfl, rfl, rfl, rfl⟩

/-- Filtering the relationally updated table for the target id yields the
merged versions of exactly the previously matching rows (the merge keeps
the id). -/
theorem filter_update_goals (id : Nat) (u : GoalUpdate) (l : List FinancialGoal) :
    (l.map (fun g => if g.id == id then applyGoalUpdate g u else g)).filter
        (fun g => g.id == id) =
      (l.filter (fun g => g.id == id)).map (fun g => applyGoalUpdate g u) := by
  induction l with
  | nil => rfl
  | cons a l ih =>
    by_cases ha : a.id = id
    · have hpres : (applyGoalUpdate a u).id = id := ha
      simpa [List.filter_cons, ha, hpres] using ih
    · simpa [List.filter_cons, ha] using ih

/-- After the relational delete removed every row with the id, selecting
that id finds nothing. -/
theorem filter_id_after_remove (id : Nat) (l : List FinancialGoal) :
    (l.filter (fun g => !(g.id == id))).filter (fun g => g.id == id) = [] := by
  induction l with
  | nil => rfl
  | cons a l ih =>
    by_cases ha : a.id = id <;> simp [List.filter_cons, beq_iff_eq, ha, ih]

/-- The relational delete is idempotent on the stored rows. -/
theorem remove_id_idem (id : Nat) (l : List FinancialGoal) :
    (l.filter (fun g => !(g.id == id))).filter (fun g => !(g.id == id)) =
      l.filter (fun g => !(g.id == id)) := by
  induction l with
  | nil => rfl
  | cons a l ih =>
    by_cases ha : a.id = id <;> simp [List.filter_cons, beq_iff_eq, ha, ih]

/-- C5: on both backends, after createUser(data) succeeds with a User of
id i, getUser(i) returns exactly that record: the input data plus the
assigned id and creation timestamp; on the relational backend the
credential round-trips through the password-to-password_hash column
rename.  `hfresh` is the SERIAL invariant (no stored row already carries
the next sequence value). -/
theorem c5_create_then_get_roundtrip (st : MemStorage)
    (db db₂ : PostgresStorage) (d : InsertUser) (now : Time) (u : User)
    (hfresh : ∀ r ∈ db.users, r.id ≠ db.userSeq)
    (hc : db.createUser d now = .ok (u, db₂)) :
    (st.createUser d now).2.getUser (st.createUser d now).1.id
      = some (st.createUser d now).1 ∧
    (st.createUser d now).1.username = d.username ∧
    (st.createUser d now).1.email = d.email ∧
    (st.createUser d now).1.password = d.password ∧
    (st.createUser d now).1.createdAt = now ∧
    db₂.getUser u.id = some u ∧
    u.username = d.username ∧ u.email = d.email ∧
    u.password = d.password ∧ u.createdAt = now := by
  have hpg : db₂.getUser u.id = some u ∧ u.username = d.username ∧
      u.email = d.email ∧ u.password = d.password ∧ u.createdAt = now := by
    rw [PostgresStorage.createUser] at hc
    split at hc
    · cases hc
    · simp only [Except.ok.injEq, Prod.mk.injEq] at hc
      obtain ⟨hu, hdb⟩ := hc
      subst hu
      subst hdb
      refine ⟨?_, rfl, rfl, rfl, rfl⟩
      simp only [PostgresStorage.getUser, UserRow.toUser, List.filter_append]
      have h1 : db.users.filter (fun r => r.id == db.userSeq) = [] := by
        rw [List.filter_eq_nil_iff]
        intro r hr
        simp [hfresh r hr]
      rw [h1]
      simp [UserRow.toUser]
  refine ⟨?_, rfl, rfl, rfl, rfl,
    hpg.1, hpg.2.1, hpg.2.2.1, hpg.2.2.2.1, hpg.2.2.2.2⟩
  exact mapGet_mapSet_self (fun x : User => x.id) st.userIdCounter
    { id := st.userIdCounter, username := d.username, email := d.email,
      password := d.password, createdAt := now } rfl st.users

/-- Witness for c5: creating alice in both empty stores at time 100. -/
theorem c5_create_then_get_roundtrip_witness :
    ((∀ r ∈ PostgresStorage.empty.users, r.id ≠ PostgresStorage.empty.userSeq) ∧
     PostgresStorage.empty.createUser aliceInsert 100 = .ok (aliceUser, pgAlice)) ∧
    ((MemStorage.empty.createUser aliceInsert 100).2.getUser
        (MemStorage.empty.createUser aliceInsert 100).1.id
      = some (MemStorage.empty.createUser aliceInsert 100).1 ∧
     (MemStorage.empty.createUser aliceInsert 100).1.username = aliceInsert.username ∧
     (MemStorage.empty.createUser aliceInsert 100).1.email = aliceInsert.email ∧
     (MemStorage.empty.createUser aliceInsert 100).1.password = aliceInsert.password ∧
     (MemStorage.empty.createUser aliceInsert 100).1.createdAt = 100 ∧
     pgAlice.getUser aliceUser.id = some aliceUser ∧
     aliceUser.username = aliceInsert.username ∧
     aliceUser.email = aliceInsert.email ∧
     aliceUser.password = aliceInsert.password ∧
     aliceUser.createdAt = 100) :=
  ⟨⟨by decide, rfl⟩,
   c5_create_then_get_roundtrip MemStorage.empty PostgresStorage.empty pgAlice
     aliceInsert 100 aliceUser (by decide) rfl⟩

/-- C6: on both backends, deleting an existing goal id returns true and
removes the goal; an immediately subsequent delete of the same id returns
false and leaves the store unchanged (hence every later delete of that id
also returns false), and getFinancialGoal(id) thereafter returns the
not-found sentinel.  `hnd` is the Map invariant of unique goal ids in the
in-memory store. -/
theorem c6_deletion_law (st : MemStorage) (db : PostgresStorage) (id : Nat)
    (g gp : FinancialGoal)
    (hnd : (st.financialGoals.map (fun x => x.id)).Nodup)
    (hm : st.getFinancialGoal id = some g)
    (hp : db.getFinancialGoal id = some gp) :
    (st.deleteFinancialGoal id).1 = true ∧
    ((st.deleteFinancialGoal id).2.deleteFinancialGoal id).1 = false ∧
    ((st.deleteFinancialGoal id).2.deleteFinancialGoal id).2
      = (st.deleteFinancialGoal id).2 ∧
    (st.deleteFinancialGoal id).2.getFinancialGoal id = none ∧
    (db.deleteFinancialGoal id).1 = true ∧
    ((db.deleteFinancialGoal id).2.deleteFinancialGoal id).1 = false ∧
    ((db.deleteFinancialGoal id).2.deleteFinancialGoal id).2
      = (db.deleteFinancialGoal id).2 ∧
    (db.deleteFinancialGoal id).2.getFinancialGoal id = none := by
  have hno : ∀ x ∈ (mapDelete (fun x : FinancialGoal => x.id) id st.financialGoals).2,
      x.id ≠ id :=
    mapDelete_no_key (fun x : FinancialGoal => x.id) id st.financialGoals hnd
  have hdel2 : mapDelete (fun x : FinancialGoal => x.id) id
      (mapDelete (fun x : FinancialGoal => x.id) id st.financialGoals).2
      = (false, (mapDelete (fun x : FinancialGoal => x.id) id st.financialGoals).2) :=
    mapDelete_not_found (fun x : FinancialGoal => x.id) id _ hno
  rw [PostgresStorage.getFinancialGoal] at hp
  have hne := hp
  refine ⟨?_, ?_, ?_, ?_, ?_, ?_, ?_, ?_⟩
  · exact mapDelete_found (fun x : FinancialGoal => x.id) id st.financialGoals g hm
  · simp only [MemStorage.deleteFinancialGoal]
    rw [hdel2]
  · simp only [MemStorage.deleteFinancialGoal]
    rw [hdel2]
  · simp only [MemStorage.deleteFinancialGoal, MemStorage.getFinancialGoal]
    exact mapGet_not_found (fun x : FinancialGoal => x.id) id _ hno
  · simp only [PostgresStorage.deleteFinancialGoal]
    cases hfl : db.financialGoals.filter (fun x => x.id == id) with
    | nil => rw [hfl] at hne; cases hne
    | cons x xs => simp [hfl]
  · simp only [PostgresStorage.deleteFinancialGoal]
    simp [filter_id_after_remove]
  · simp only [PostgresStorage.deleteFinancialGoal]
    rw [remove_id_idem]
  · simp only [PostgresStorage.deleteFinancialGoal, PostgresStorage.getFinancialGoal]
    simp [filter_id_after_remove]

/-- Witness for c6: a store holding the single sample goal with id 1. -/
theorem c6_deletion_law_witness :
    ((memGoal.financialGoals.map (fun x => x.id)).Nodup ∧
     memGoal.getFinancialGoal 1 = some gEx ∧
     pgGoal.getFinancialGoal 1 = some gEx) ∧
    ((memGoal.deleteFinancialGoal 1).1 = true ∧
     ((memGoal.deleteFinancialGoal 1).2.deleteFinancialGoal 1).1 = false ∧
     ((memGoal.deleteFinancialGoal 1).2.deleteFinancialGoal 1).2
       = (memGoal.deleteFinancialGoal 1).2 ∧
     (memGoal.deleteFinancialGoal 1).2.getFinancialGoal 1 = none ∧
     (pgGoal.deleteFinancialGoal 1).1 = true ∧
     ((pgGoal.deleteFinancialGoal 1).2.deleteFinancialGoal 1).1 = false ∧
     ((pgGoal.deleteFinancialGoal 1).2.deleteFinancialGoal 1).2
       = (pgGoal.deleteFinancialGoal 1).2 ∧
     (pgGoal.deleteFinancialGoal 1).2.getFinancialGoal 1 = none) :=
  ⟨⟨by decide, by decide, by decide⟩,
   c6_deletion_law memGoal pgGoal 1 gEx gEx (by decide) (by decide) (by decide)⟩

/-- C7: on both backends, updating an existing goal returns and stores
exactly the merge of the partial data over the prior record: each field
present in the update is overwritten with the supplied value, each absent
field keeps its prior value, and id and creation timestamp are untouched. -/
theorem c7_partial_merge (st : MemStorage) (db : PostgresStorage) (id : Nat)
    (u : GoalUpdate) (g gp : FinancialGoal)
    (hm : st.getFinancialGoal id = some g)
    (hp : db.getFinancialGoal id = some gp) :
    (st.updateFinancialGoal id u).1 = some (applyGoalUpdate g u) ∧
    (st.updateFinancialGoal id u).2.getFinancialGoal id
      = some (applyGoalUpdate g u) ∧
    (db.updateFinancialGoal id u).1 = some (applyGoalUpdate gp u) ∧
    (db.updateFinancialGoal id u).2.getFinancialGoal id
      = some (applyGoalUpdate gp u) ∧
    (applyGoalUpdate g u).id = g.id ∧
    (applyGoalUpdate g u).createdAt = g.createdAt ∧
    (applyGoalUpdate g u).userId = u.userId.getD g.userId ∧
    (applyGoalUpdate g u).title = u.title.getD g.title ∧
    (applyGoalUpdate g u).targetAmount = u.targetAmount.getD g.targetAmount ∧
    (applyGoalUpdate g u).currentAmount = u.currentAmount.getD g.currentAmount ∧
    (applyGoalUpdate g u).deadline = u.deadline.getD g.deadline ∧
    (applyGoalUpdate g u).category = u.category.getD g.category := by
  have hgid : g.id = id := by simpa using List.find?_some hm
  have hm1 : (st.updateFinancialGoal id u).1 = some (applyGoalUpdate g u) := by
    simp only [MemStorage.updateFinancialGoal, hm]
  have hm2 : (st.updateFinancialGoal id u).2.getFinancialGoal id
      = some (applyGoalUpdate g u) := by
    have hm' : mapGet (fun x : FinancialGoal => x.id) id st.financialGoals = some g := hm
    simp only [MemStorage.updateFinancialGoal, MemStorage.getFinancialGoal, hm']
    exact mapGet_mapSet_self (fun x : FinancialGoal => x.id) id
      (applyGoalUpdate g u) hgid st.financialGoals
  rw [PostgresStorage.getFinancialGoal] at hp
  have hp1 : (db.updateFinancialGoal id u).1 = some (applyGoalUpdate gp u) := by
    simp only [PostgresStorage.updateFinancialGoal]
    rw [List.head?_map, hp]
    rfl
  have hp2 : (db.updateFinancialGoal id u).2.getFinancialGoal id
      = some (applyGoalUpdate gp u) := by
    simp only [PostgresStorage.updateFinancialGoal, PostgresStorage.getFinancialGoal]
    rw [filter_update_goals, List.head?_map, hp]
    rfl
  exact ⟨hm1, hm2, hp1, hp2, rfl, rfl, rfl, rfl, rfl, rfl, rfl, rfl⟩

/-- Witness for c7: the sample goal updated with a title-only partial. -/
theorem c7_partial_merge_witness :
    (memGoal.getFinancialGoal 1 = some gEx ∧
     pgGoal.getFinancialGoal 1 = some gEx) ∧
    ((memGoal.updateFinancialGoal 1 uTitle).1 = some (applyGoalUpdate gEx uTitle) ∧
     (memGoal.updateFinancialGoal 1 uTitle).2.getFinancialGoal 1
       = some (applyGoalUpdate gEx uTitle) ∧
     (pgGoal.updateFinancialGoal 1 uTitle).1 = some (applyGoalUpdate gEx uTitle) ∧
     (pgGoal.updateFinancialGoal 1 uTitle).2.getFinancialGoal 1
       = some (applyGoalUpdate gEx uTitle) ∧
     (applyGoalUpdate gEx uTitle).id = gEx.id ∧
     (applyGoalUpdate gEx uTitle).createdAt = gEx.createdAt ∧
     (applyGoalUpdate gEx uTitle).userId = uTitle.userId.getD gEx.userId ∧
     (applyGoalUpdate gEx uTitle).title = uTitle.title.getD gEx.title ∧
     (applyGoalUpdate gEx uTitle).targetAmount
       = uTitle.targetAmount.getD gEx.targetAmount ∧
     (applyGoalUpdate gEx uTitle).currentAmount
       = uTitle.currentAmount.getD gEx.currentAmount ∧
     (applyGoalUpdate gEx uTitle).deadline = uTitle.deadline.getD gEx.deadline ∧
     (applyGoalUpdate gEx uTitle).category = uTitle.category.getD gEx.category) :=
  ⟨⟨by decide, by decide⟩,
   c7_partial_merge memGoal pgGoal 1 uTitle gEx gEx (by decide) (by decide)⟩

/-- C8: the in-memory backend's operations are total functions with no
error channel in their types (the create operations always succeed by
construction), and absence is always reported through the not-found
sentinel: none for the lookups (getUser, getUserByUsername and
getUserByEmail on a never-created username/email, getFinancialProfile,
getFinancialGoal), false with an unchanged store for deleteFinancialGoal
of a non-existent id, the empty list for listings of a user with no
records, and none with an unchanged store for updateFinancialProfile and
updateFinancialGoal of a non-existent target. -/
theorem c8_mem_not_found_sentinels (st : MemStorage) (username email : String)
    (uid mid gid pid : Nat) (gu : GoalUpdate) (pu : ProfileUpdate) (pnow : Time)
    (hu : ∀ x ∈ st.users, x.username ≠ username)
    (he : ∀ x ∈ st.users, x.email ≠ email)
    (hi : ∀ x ∈ st.users, x.id ≠ uid)
    (hg : ∀ x ∈ st.financialGoals, x.id ≠ gid)
    (hmsg : ∀ x ∈ st.chatMessages, x.userId ≠ mid)
    (hgl : ∀ x ∈ st.financialGoals, x.userId ≠ mid)
    (hpr : ∀ x ∈ st.financialProfiles, x.userId ≠ pid) :
    st.getUserByUsername username = none ∧
    st.getUserByEmail email = none ∧
    st.getUser uid = none ∧
    st.getFinancialGoal gid = none ∧
    st.deleteFinancialGoal gid = (false, st) ∧
    st.getChatMessages mid none = [] ∧
    st.getFinancialGoals mid = [] ∧
    st.getFinancialProfile pid = none ∧
    st.updateFinancialProfile pid pu pnow = (none, st) ∧
    st.updateFinancialGoal gid gu = (none, st) := by
  have hgf : st.getFinancialGoal gid = none :=
    mapGet_not_found (fun x : FinancialGoal => x.id) gid st.financialGoals hg
  have hpf : st.getFinancialProfile pid = none := by
    rw [MemStorage.getFinancialProfile, List.find?_eq_none]
    intro x hx
    simp [hpr x hx]
  refine ⟨?_, ?_, ?_, hgf, ?_, ?_, ?_, hpf, ?_, ?_⟩
  · rw [MemStorage.getUserByUsername, List.find?_eq_none]
    intro x hx
    simp [hu x hx]
  · rw [MemStorage.getUserByEmail, List.find?_eq_none]
    intro x hx
    simp [he x hx]
  · exact mapGet_not_found (fun x : User => x.id) uid st.users hi
  · simp only [MemStorage.deleteFinancialGoal]
    rw [mapDelete_not_found (fun x : FinancialGoal => x.id) gid st.financialGoals hg]
  · have hf : st.chatMessages.filter (fun m => m.userId == mid) = [] := by
      rw [List.filter_eq_nil_iff]
      intro x hx
      simp [hmsg x hx]
    simp [MemStorage.getChatMessages, hf, sortByKey]
  · have hf : st.financialGoals.filter (fun x => x.userId == mid) = [] := by
      rw [List.filter_eq_nil_iff]
      intro x hx
      simp [hgl x hx]
    simp [MemStorage.getFinancialGoals, hf, sortByKey]
  · simp only [MemStorage.updateFinancialProfile, hpf]
  · simp only [MemStorage.updateFinancialGoal, hgf]

/-- Witness for c8: a populated store (one user, profile, message and
goal) queried with never-created username, email and ids. -/
theorem c8_mem_not_found_sentinels_witness :
    ((∀ x ∈ memPop.users, x.username ≠ "bob") ∧
     (∀ x ∈ memPop.users, x.email ≠ "b@x.com") ∧
     (∀ x ∈ memPop.users, x.id ≠ 7) ∧
     (∀ x ∈ memPop.financialGoals, x.id ≠ 9) ∧
     (∀ x ∈ memPop.chatMessages, x.userId ≠ 5) ∧
     (∀ x ∈ memPop.financialGoals, x.userId ≠ 5) ∧
     (∀ x ∈ memPop.financialProfiles, x.userId ≠ 8)) ∧
    (memPop.getUserByUsername "bob" = none ∧
     memPop.getUserByEmail "b@x.com" = none ∧
     memPop.getUser 7 = none ∧
     memPop.getFinancialGoal 9 = none ∧
     memPop.deleteFinancialGoal 9 = (false, memPop) ∧
     memPop.getChatMessages 5 none = [] ∧
     memPop.getFinancialGoals 5 = [] ∧
     memPop.getFinancialProfile 8 = none ∧
     memPop.updateFinancialProfile 8 puEx 70 = (none, memPop) ∧
     memPop.updateFinancialGoal 9 uTitle = (none, memPop)) :=
  ⟨⟨by decide, by decide, by decide, by decide, by decide, by decide, by decide⟩,
   c8_mem_not_found_sentinels memPop "bob" "b@x.com" 7 5 9 8 uTitle puEx 70
     (by decide) (by decide) (by decide) (by decide) (by decide) (by decide)
     (by decide)⟩

/-- C10: on both backends, an update never changes the goal's id (the
updated record keeps the id it was looked up under), while the owning
user id follows the partial data: whenever the update carries a userId,
the stored and returned goal's owner becomes that value, so ownership is
not preserved by update. -/
theorem c10_update_keeps_id_can_change_owner (st : MemStorage)
    (db : PostgresStorage) (id : Nat) (u : GoalUpdate)
    (g gp g₁ gp₁ : FinancialGoal)
    (hm : st.getFinancialGoal id = some g)
    (hm₁ : (st.updateFinancialGoal id u).1 = some g₁)
    (hp : db.getFinancialGoal id = some gp)
    (hp₁ : (db.updateFinancialGoal id u).1 = some gp₁) :
    g₁.id = id ∧ g₁.id = g.id ∧ gp₁.id = id ∧ gp₁.id = gp.id ∧
    g₁.userId = u.userId.getD g.userId ∧
    gp₁.userId = u.userId.getD gp.userId := by
  have hgid : g.id = id := by simpa using List.find?_some hm
  simp only [MemStorage.updateFinancialGoal, hm, Option.some.injEq] at hm₁
  subst hm₁
  rw [PostgresStorage.getFinancialGoal] at hp
  have hgpid : gp.id = id := by
    have hmem : gp ∈ db.financialGoals.filter (fun x => x.id == id) := by
      cases hfl : db.financialGoals.filter (fun x => x.id == id) with
      | nil => rw [hfl] at hp; cases hp
      | cons x xs =>
        rw [hfl] at hp
        simp only [List.head?_cons, Option.some.injEq] at hp
        subst hp
        exact List.mem_cons_self x xs
    simpa using (List.mem_filter.mp hmem).2
  simp only [PostgresStorage.updateFinancialGoal] at hp₁
  rw [List.head?_map, hp] at hp₁
  simp only [Option.map_some', Option.some.injEq] at hp₁
  subst hp₁
  exact ⟨hgid, rfl, hgpid, rfl, rfl, rfl⟩

/-- Witness for c10: updating the sample goal with a userId-only partial
moves ownership from user 1 to user 42 while the id stays 1. -/
theorem c10_update_keeps_id_can_change_owner_witness :
    (memGoal.getFinancialGoal 1 = some gEx ∧
     (memGoal.updateFinancialGoal 1 uOwner).1 = some gOwned ∧
     pgGoal.getFinancialGoal 1 = some gEx ∧
     (pgGoal.updateFinancialGoal 1 uOwner).1 = some gOwned) ∧
    (gOwned.id = 1 ∧ gOwned.id = gEx.id ∧ gOwned.id = 1 ∧ gOwned.id = gEx.id ∧
     gOwned.userId = uOwner.userId.getD gEx.userId ∧
     gOwned.userId = uOwner.userId.getD gEx.userId) :=
  ⟨⟨by decide, by decide, by decide, by decide⟩,
   c10_update_keeps_id_can_change_owner memGoal pgGoal 1 uOwner gEx gEx gOwned gOwned
     (by decide) (by decide) (by decide) (by decide)⟩
